import Mathlib

/-!
Shallow embedding of the Obsidian "file dates display" plugin
(src/main.js) and proofs about its overlay-refresh and settings logic.

The plugin's mutable world is modelled explicitly:
* `Settings` mirrors the `settings` record of `FileDatesPlugin`
  (src/main.js lines 4-10).
* A document view's container element is a `List DomNode`; the overlay
  (`div.file-dates-container`), the inline title (`.inline-title`) and
  all other elements are the three node shapes.
* `updateActiveDates` mirrors the method of the same name
  (src/main.js lines 56-121): precondition checks, lookup-or-create of
  the overlay node, text computation and style assignment.
* The settings tab's change handlers (src/main.js lines 154-207) are
  three-command programs run by a small interpreter, so that the order
  "write field, persist, refresh" is an object of study.
* `loadSettings` mirrors `Object.assign({}, this.settings, await
  this.loadData())` (src/main.js line 130), with the loaded record as a
  field-wise partial record.

The external moment.js formatter is an opaque parameter
`m : Nat → String → String` (timestamp, pattern ↦ formatted string).
-/

namespace FileDates

/-- The plugin settings record (src/main.js lines 4-10). -/
structure Settings where
  fontSize : String
  italic : Bool
  showCreated : Bool
  showModified : Bool
  dateFormat : String
deriving Repr, DecidableEq

/-- The class-field initializer of `FileDatesPlugin.settings`
(src/main.js lines 4-10): the fixed defaults. -/
def defaultSettings : Settings :=
  { fontSize := "12px"
    italic := true
    showCreated := true
    showModified := true
    dateFormat := "MM-DD-YYYY" }

/-- The `stat` record of the active file: creation and modification
timestamps (milliseconds since epoch). -/
structure FileStat where
  ctime : Nat
  mtime : Nat
deriving Repr, DecidableEq

/-- The computed style of the inline title element, as read by
`window.getComputedStyle(inlineTitleEl)` (src/main.js line 115): the
five properties the plugin mirrors. -/
structure ComputedStyle where
  textAlign : String
  paddingLeft : String
  paddingRight : String
  marginLeft : String
  marginRight : String
deriving Repr, DecidableEq

/-- The overlay element `div.file-dates-container`: its text content and
the inline style properties the plugin assigns. -/
structure OverlayNode where
  textContent : String
  fontSize : String
  fontStyle : String
  textAlign : String
  paddingLeft : String
  paddingRight : String
  marginLeft : String
  marginRight : String
deriving Repr, DecidableEq

/-- A freshly created `div` (src/main.js line 80): empty text, no inline
styles set yet. -/
def freshOverlay : OverlayNode :=
  { textContent := ""
    fontSize := ""
    fontStyle := ""
    textAlign := ""
    paddingLeft := ""
    paddingRight := ""
    marginLeft := ""
    marginRight := "" }

/-- A node of the view's container element, classified by what the
plugin's selectors can distinguish: the overlay
(`.file-dates-container`), the inline title (`.inline-title`), or any
other element. -/
inductive DomNode where
  | overlay (node : OverlayNode)
  | inlineTitle
  | other (tag : String)
deriving Repr, DecidableEq

/-- `querySelector('.inline-title')` succeeds on the container
(src/main.js lines 70 and 74): is some inline title present? -/
def hasInlineTitle : List DomNode → Bool
  | [] => false
  | DomNode.inlineTitle :: _ => true
  | _ :: rest => hasInlineTitle rest

/-- `view.containerEl.querySelector('.file-dates-container')`
(src/main.js line 78): the first overlay node in document order, if
any. -/
def findOverlay : List DomNode → Option OverlayNode
  | [] => none
  | DomNode.overlay n :: _ => some n
  | _ :: rest => findOverlay rest

/-- `inlineTitleEl.parentElement.insertBefore(dateContainer,
inlineTitleEl)` (src/main.js line 83): insert `d` immediately before
the first inline title. (Called by the plugin only when a title is
present; on a title-free list it appends, like `insertBefore` with a
null reference.) -/
def insertBeforeTitle (d : DomNode) : List DomNode → List DomNode
  | [] => [d]
  | DomNode.inlineTitle :: rest => d :: DomNode.inlineTitle :: rest
  | x :: rest => x :: insertBeforeTitle d rest

/-- Mutate the node found by `querySelector('.file-dates-container')`:
apply `f` to the first overlay node, leave everything else in place. -/
def updateFirstOverlay (f : OverlayNode → OverlayNode) : List DomNode → List DomNode
  | [] => []
  | DomNode.overlay n :: rest => DomNode.overlay (f n) :: rest
  | x :: rest => x :: updateFirstOverlay f rest

/-- The host-supplied inputs of one `updateActiveDates` call:
`app.workspace.activeLeaf`, `activeLeaf.view`,
`app.workspace.getActiveFile()`, whether the inline title's
`closest('.markdown-source-view, .markdown-preview-view')` succeeds,
and the inline title's computed style. -/
structure RefreshEnv where
  hasActiveLeaf : Bool
  hasView : Bool
  activeFile : Option FileStat
  titleInMarkdownView : Bool
  titleStyle : ComputedStyle
deriving Repr, DecidableEq

/-- `formatDate` (src/main.js lines 123-127):
`moment(timestamp).format(this.settings.dateFormat)`, with moment.js as
the opaque parameter `m`. -/
def formatDate (m : Nat → String → String) (s : Settings) (timestamp : Nat) : String :=
  m timestamp s.dateFormat

/-- The `dateText` accumulation of `updateActiveDates`
(src/main.js lines 87-101): starts empty, appends the created segment
if `showCreated`, the separator if both flags, the modified segment if
`showModified`. -/
def dateTextOf (m : Nat → String → String) (s : Settings) (file : FileStat) : String :=
  let t1 : String := if s.showCreated then "Created: " ++ formatDate m s file.ctime else ""
  let t2 : String := if s.showCreated && s.showModified then t1 ++ " • " else t1
  if s.showModified then t2 ++ ("Modified: " ++ formatDate m s file.mtime) else t2

/-- The write-back portion of `updateActiveDates`
(src/main.js lines 103-120), applied to the overlay node: assign
`textContent`, then `fontSize`, `fontStyle` from `italic`, then mirror
the title's computed `textAlign`, paddings and margins. -/
def applyOverlayUpdate (m : Nat → String → String) (s : Settings) (file : FileStat)
    (titleStyle : ComputedStyle) (node : OverlayNode) : OverlayNode :=
  let node := { node with textContent := dateTextOf m s file }
  let node := { node with fontSize := s.fontSize }
  let node := { node with fontStyle := if s.italic then "italic" else "normal" }
  let node := { node with textAlign := titleStyle.textAlign }
  let node := { node with paddingLeft := titleStyle.paddingLeft }
  let node := { node with paddingRight := titleStyle.paddingRight }
  let node := { node with marginLeft := titleStyle.marginLeft }
  { node with marginRight := titleStyle.marginRight }

/-- `updateActiveDates` (src/main.js lines 56-121). Early returns on a
missing active leaf, view, file, or content container (an inline title
inside a markdown source/preview view); then looks up the overlay node,
creating and inserting one before the inline title only when none is
found; then writes text and styles. Returns the view container's new
child list. -/
def updateActiveDates (m : Nat → String → String) (s : Settings)
    (env : RefreshEnv) (children : List DomNode) : List DomNode :=
  if env.hasActiveLeaf = false then children
  else if env.hasView = false then children
  else
    match env.activeFile with
    | none => children
    | some file =>
      if (hasInlineTitle children && env.titleInMarkdownView) = false then children
      else
        let children1 :=
          match findOverlay children with
          | some _ => children
          | none => insertBeforeTitle (DomNode.overlay freshOverlay) children
        updateFirstOverlay (applyOverlayUpdate m s file env.titleStyle) children1

/-- Text content of the overlay node of a container, if one exists. -/
def overlayText (children : List DomNode) : Option String :=
  (findOverlay children).map OverlayNode.textContent

/-- Number of overlay nodes in a container. -/
def countOverlays : List DomNode → Nat
  | [] => 0
  | DomNode.overlay _ :: rest => countOverlays rest + 1
  | _ :: rest => countOverlays rest

/-- Is this node the overlay? -/
def isOverlayNode : DomNode → Bool
  | DomNode.overlay _ => true
  | _ => false

/-- Is this node the inline title? -/
def isTitleNode : DomNode → Bool
  | DomNode.inlineTitle => true
  | _ => false

/-- Some overlay node is the immediately preceding sibling of an inline
title. -/
def overlayJustBeforeTitle : List DomNode → Bool
  | [] => false
  | [_] => false
  | x :: y :: rest =>
    (isOverlayNode x && isTitleNode y) || overlayJustBeforeTitle (y :: rest)

/-- The plugin-level mutable state: the in-memory `this.settings`, the
last record written through `saveData` (none if nothing was ever
saved), and the active view container's child list. -/
structure PluginState where
  settings : Settings
  savedData : Option Settings
  dom : List DomNode
deriving Repr, DecidableEq

/-- One step of a settings-tab `onChange` handler
(src/main.js lines 154-207): a field assignment, the awaited
`saveSettings()` call, or the `updateActiveDates()` call. -/
inductive PanelCmd where
  | setFontSize (value : String)
  | setItalic (value : Bool)
  | setShowCreated (value : Bool)
  | setShowModified (value : Bool)
  | setDateFormat (value : String)
  | saveSettings
  | refreshOverlay
deriving Repr, DecidableEq

/-- Effect of one handler step on the plugin state. `saveSettings`
mirrors `await this.saveData(this.settings)` (src/main.js line 134);
`refreshOverlay` runs `updateActiveDates` on the current settings. -/
def runCmd (m : Nat → String → String) (env : RefreshEnv) :
    PanelCmd → PluginState → PluginState
  | PanelCmd.setFontSize v, st => { st with settings := { st.settings with fontSize := v } }
  | PanelCmd.setItalic v, st => { st with settings := { st.settings with italic := v } }
  | PanelCmd.setShowCreated v, st =>
      { st with settings := { st.settings with showCreated := v } }
  | PanelCmd.setShowModified v, st =>
      { st with settings := { st.settings with showModified := v } }
  | PanelCmd.setDateFormat v, st =>
      { st with settings := { st.settings with dateFormat := v } }
  | PanelCmd.saveSettings, st => { st with savedData := some st.settings }
  | PanelCmd.refreshOverlay, st =>
      { st with dom := updateActiveDates m st.settings env st.dom }

/-- Run the steps of a handler left to right, as the `async` handler
body does (the save is awaited before the refresh runs). -/
def runCmds (m : Nat → String → String) (env : RefreshEnv) :
    List PanelCmd → PluginState → PluginState
  | [], st => st
  | c :: cs, st => runCmds m env cs (runCmd m env c st)

/-- The Font Size text field's `onChange` (src/main.js lines 159-163). -/
def fontSizeOnChange (value : String) : List PanelCmd :=
  [PanelCmd.setFontSize value, PanelCmd.saveSettings, PanelCmd.refreshOverlay]

/-- The Italic toggle's `onChange` (src/main.js lines 170-174). -/
def italicOnChange (value : Bool) : List PanelCmd :=
  [PanelCmd.setItalic value, PanelCmd.saveSettings, PanelCmd.refreshOverlay]

/-- The Show Created Date toggle's `onChange`
(src/main.js lines 181-185). -/
def showCreatedOnChange (value : Bool) : List PanelCmd :=
  [PanelCmd.setShowCreated value, PanelCmd.saveSettings, PanelCmd.refreshOverlay]

/-- The Show Modified Date toggle's `onChange`
(src/main.js lines 192-196). -/
def showModifiedOnChange (value : Bool) : List PanelCmd :=
  [PanelCmd.setShowModified value, PanelCmd.saveSettings, PanelCmd.refreshOverlay]

/-- The Date Format text field's `onChange`
(src/main.js lines 203-207). -/
def dateFormatOnChange (value : String) : List PanelCmd :=
  [PanelCmd.setDateFormat value, PanelCmd.saveSettings, PanelCmd.refreshOverlay]

/-- The record `loadData()` resolves to: a JSON object that may carry
any subset of the five settings fields, or nothing at all (first run:
`loadData` resolves to null, which `Object.assign` ignores). -/
structure PartialSettings where
  fontSize : Option String
  italic : Option Bool
  showCreated : Option Bool
  showModified : Option Bool
  dateFormat : Option String
deriving Repr, DecidableEq

/-- `Object.assign({}, base, data)` on settings records: every field
present in `data` wins, every absent field keeps the base value; a null
`data` leaves the base untouched. -/
def objectAssign (base : Settings) (data : Option PartialSettings) : Settings :=
  match data with
  | none => base
  | some d =>
    { fontSize := d.fontSize.getD base.fontSize
      italic := d.italic.getD base.italic
      showCreated := d.showCreated.getD base.showCreated
      showModified := d.showModified.getD base.showModified
      dateFormat := d.dateFormat.getD base.dateFormat }

/-- `loadSettings` (src/main.js lines 129-131) as run from `onload`:
`this.settings` still holds the class-field defaults, so the result is
the defaults merged with whatever `loadData()` returned. -/
def loadSettings (data : Option PartialSettings) : Settings :=
  objectAssign defaultSettings data

/-- A concrete moment.js stand-in used by the witness theorems. -/
def exMoment : Nat → String → String :=
  fun timestamp pat => toString timestamp ++ "@" ++ pat

/-- A concrete computed style of the inline title. -/
def exStyle : ComputedStyle :=
  { textAlign := "center"
    paddingLeft := "24px"
    paddingRight := "24px"
    marginLeft := "0px"
    marginRight := "0px" }

/-- A concrete active file. -/
def exFile : FileStat :=
  { ctime := 1700000000000, mtime := 1700086400000 }

/-- A concrete refresh environment with every precondition satisfied. -/
def exEnv : RefreshEnv :=
  { hasActiveLeaf := true
    hasView := true
    activeFile := some exFile
    titleInMarkdownView := true
    titleStyle := exStyle }

/-- A concrete view container before any refresh: some chrome, the
inline title, the content — and no overlay yet. -/
def exChildren : List DomNode :=
  [DomNode.other "div", DomNode.inlineTitle, DomNode.other "p"]

/-- Settings with only the created date shown. -/
def exCreatedOnly : Settings :=
  { defaultSettings with showModified := false }

/-- Settings with only the modified date shown. -/
def exModifiedOnly : Settings :=
  { defaultSettings with showCreated := false }

/-- Settings with neither date shown. -/
def exNoneShown : Settings :=
  { defaultSettings with showCreated := false, showModified := false }

/-- A concrete plugin state. -/
def exState : PluginState :=
  { settings := defaultSettings, savedData := none, dom := exChildren }

/-- A concrete environment with no active leaf. -/
def exEnvNoLeaf : RefreshEnv :=
  { exEnv with hasActiveLeaf := false }

/-! ### Helper lemmas about the container operations -/

theorem applyOverlayUpdate_const (m : Nat → String → String) (s : Settings)
    (file : FileStat) (titleStyle : ComputedStyle) (a b : OverlayNode) :
    applyOverlayUpdate m s file titleStyle a = applyOverlayUpdate m s file titleStyle b := rfl

theorem findOverlay_insertBeforeTitle (n : OverlayNode) (l : List DomNode)
    (h : findOverlay l = none) :
    findOverlay (insertBeforeTitle (DomNode.overlay n) l) = some n := by
  induction l with
  | nil => rfl
  | cons x rest ih =>
    cases x with
    | overlay k => simp [findOverlay] at h
    | inlineTitle => rfl
    | other t =>
      have h' : findOverlay rest = none := by simpa [findOverlay] using h
      simpa [insertBeforeTitle, findOverlay] using ih h'

theorem findOverlay_updateFirstOverlay (f : OverlayNode → OverlayNode)
    (l : List DomNode) :
    findOverlay (updateFirstOverlay f l) = (findOverlay l).map f := by
  induction l with
  | nil => rfl
  | cons x rest ih =>
    cases x with
    | overlay k => rfl
    | inlineTitle => simpa [updateFirstOverlay, findOverlay] using ih
    | other t => simpa [updateFirstOverlay, findOverlay] using ih

theorem hasInlineTitle_updateFirstOverlay (f : OverlayNode → OverlayNode)
    (l : List DomNode) :
    hasInlineTitle (updateFirstOverlay f l) = hasInlineTitle l := by
  induction l with
  | nil => rfl
  | cons x rest ih =>
    cases x <;> simp [updateFirstOverlay, hasInlineTitle, ih]

theorem hasInlineTitle_insertOverlay (n : OverlayNode) (l : List DomNode) :
    hasInlineTitle (insertBeforeTitle (DomNode.overlay n) l) = hasInlineTitle l := by
  induction l with
  | nil => rfl
  | cons x rest ih =>
    cases x <;> simp [insertBeforeTitle, hasInlineTitle, ih]

theorem countOverlays_updateFirstOverlay (f : OverlayNode → OverlayNode)
    (l : List DomNode) :
    countOverlays (updateFirstOverlay f l) = countOverlays l := by
  induction l with
  | nil => rfl
  | cons x rest ih =>
    cases x <;> simp [updateFirstOverlay, countOverlays, ih]

theorem countOverlays_insertOverlay (n : OverlayNode) (l : List DomNode) :
    countOverlays (insertBeforeTitle (DomNode.overlay n) l) = countOverlays l + 1 := by
  induction l with
  | nil => rfl
  | cons x rest ih =>
    cases x <;> simp [insertBeforeTitle, countOverlays, ih]

theorem countOverlays_of_findOverlay_none (l : List DomNode)
    (h : findOverlay l = none) : countOverlays l = 0 := by
  induction l with
  | nil => rfl
  | cons x rest ih =>
    cases x with
    | overlay k => simp [findOverlay] at h
    | inlineTitle =>
      have h' : findOverlay rest = none := by simpa [findOverlay] using h
      simpa [countOverlays] using ih h'
    | other t =>
      have h' : findOverlay rest = none := by simpa [findOverlay] using h
      simpa [countOverlays] using ih h'

theorem overlayJustBeforeTitle_cons (x : DomNode) (l : List DomNode)
    (h : overlayJustBeforeTitle l = true) :
    overlayJustBeforeTitle (x :: l) = true := by
  cases l with
  | nil => simp [overlayJustBeforeTitle] at h
  | cons y rest => simp [overlayJustBeforeTitle, h]

theorem overlayJustBeforeTitle_insert_update (g : OverlayNode → OverlayNode)
    (n : OverlayNode) (l : List DomNode)
    (ht : hasInlineTitle l = true) (h : findOverlay l = none) :
    overlayJustBeforeTitle
      (updateFirstOverlay g (insertBeforeTitle (DomNode.overlay n) l)) = true := by
  induction l with
  | nil => simp [hasInlineTitle] at ht
  | cons x rest ih =>
    cases x with
    | overlay k => simp [findOverlay] at h
    | inlineTitle =>
      simp [insertBeforeTitle, updateFirstOverlay, overlayJustBeforeTitle,
        isOverlayNode, isTitleNode]
    | other t =>
      have ht' : hasInlineTitle rest = true := by simpa [hasInlineTitle] using ht
      have h' : findOverlay rest = none := by simpa [findOverlay] using h
      simp only [insertBeforeTitle, updateFirstOverlay]
      exact overlayJustBeforeTitle_cons _ _ (ih ht' h')

theorem updateFirstOverlay_updateFirstOverlay (f g : OverlayNode → OverlayNode)
    (l : List DomNode) :
    updateFirstOverlay f (updateFirstOverlay g l) =
      updateFirstOverlay (fun k => f (g k)) l := by
  induction l with
  | nil => rfl
  | cons x rest ih =>
    cases x <;> simp [updateFirstOverlay, ih]

theorem updateActiveDates_active (m : Nat → String → String) (s : Settings)
    (env : RefreshEnv) (file : FileStat) (children : List DomNode)
    (h1 : env.hasActiveLeaf = true) (h2 : env.hasView = true)
    (h3 : env.activeFile = some file)
    (h4 : hasInlineTitle children = true) (h5 : env.titleInMarkdownView = true) :
    updateActiveDates m s env children =
      updateFirstOverlay (applyOverlayUpdate m s file env.titleStyle)
        (match findOverlay children with
         | some _ => children
         | none => insertBeforeTitle (DomNode.overlay freshOverlay) children) := by
  unfold updateActiveDates
  rw [h1, h2, h3, h4, h5]
  simp

theorem findOverlay_updateActiveDates (m : Nat → String → String) (s : Settings)
    (env : RefreshEnv) (file : FileStat) (children : List DomNode)
    (h1 : env.hasActiveLeaf = true) (h2 : env.hasView = true)
    (h3 : env.activeFile = some file)
    (h4 : hasInlineTitle children = true) (h5 : env.titleInMarkdownView = true) :
    findOverlay (updateActiveDates m s env children) =
      some (applyOverlayUpdate m s file env.titleStyle freshOverlay) := by
  rw [updateActiveDates_active m s env file children h1 h2 h3 h4 h5]
  cases hfo : findOverlay children with
  | some k =>
    simp only [hfo, findOverlay_updateFirstOverlay]
    exact congrArg some (applyOverlayUpdate_const m s file env.titleStyle k freshOverlay)
  | none =>
    simp only [hfo, findOverlay_updateFirstOverlay,
      findOverlay_insertBeforeTitle freshOverlay children hfo]
    rfl

theorem applyOverlayUpdate_fresh (m : Nat → String → String) (s : Settings)
    (file : FileStat) (titleStyle : ComputedStyle) :
    applyOverlayUpdate m s file titleStyle freshOverlay =
      { textContent := dateTextOf m s file
        fontSize := s.fontSize
        fontStyle := if s.italic then "italic" else "normal"
        textAlign := titleStyle.textAlign
        paddingLeft := titleStyle.paddingLeft
        paddingRight := titleStyle.paddingRight
        marginLeft := titleStyle.marginLeft
        marginRight := titleStyle.marginRight } := rfl

theorem empty_string_append (s : String) : "" ++ s = s := rfl

/-! ### Claim theorems -/

/-- C1: with both `showCreated` and `showModified` true and all refresh
preconditions met, `updateActiveDates` sets the overlay's text content
to exactly `"Created: " ++ f ctime ++ " • " ++ "Modified: " ++ f mtime`
(with `f` the formatter under the configured pattern), replacing any
prior content — `children` ranges over containers with arbitrary prior
overlay state. -/
theorem both_shown_text_concat (m : Nat → String → String) (s : Settings)
    (env : RefreshEnv) (file : FileStat) (children : List DomNode)
    (hC : s.showCreated = true) (hM : s.showModified = true)
    (h1 : env.hasActiveLeaf = true) (h2 : env.hasView = true)
    (h3 : env.activeFile = some file)
    (h4 : hasInlineTitle children = true) (h5 : env.titleInMarkdownView = true) :
    overlayText (updateActiveDates m s env children) =
      some ("Created: " ++ m file.ctime s.dateFormat ++ " • " ++
        ("Modified: " ++ m file.mtime s.dateFormat)) := by
  rw [overlayText, findOverlay_updateActiveDates m s env file children h1 h2 h3 h4 h5,
    applyOverlayUpdate_fresh]
  simp [dateTextOf, formatDate, hC, hM]

theorem both_shown_text_concat_witness :
    overlayText (updateActiveDates exMoment defaultSettings exEnv exChildren) =
      some ("Created: " ++ exMoment exFile.ctime defaultSettings.dateFormat ++ " • " ++
        ("Modified: " ++ exMoment exFile.mtime defaultSettings.dateFormat)) :=
  both_shown_text_concat exMoment defaultSettings exEnv exFile exChildren
    rfl rfl rfl rfl rfl rfl rfl

/-- C2: with exactly one of the two flags true and all refresh
preconditions met, the overlay text is exactly the single labeled
segment of the active flag — `"Created: " ++ f ctime` or
`"Modified: " ++ f mtime` — so no `" • "` separator is appended (the
separator branch requires both flags). -/
theorem single_flag_text (m : Nat → String → String) (s : Settings)
    (env : RefreshEnv) (file : FileStat) (children : List DomNode)
    (hx : s.showCreated ≠ s.showModified)
    (h1 : env.hasActiveLeaf = true) (h2 : env.hasView = true)
    (h3 : env.activeFile = some file)
    (h4 : hasInlineTitle children = true) (h5 : env.titleInMarkdownView = true) :
    overlayText (updateActiveDates m s env children) =
      some (if s.showCreated then "Created: " ++ m file.ctime s.dateFormat
        else "Modified: " ++ m file.mtime s.dateFormat) := by
  rw [overlayText, findOverlay_updateActiveDates m s env file children h1 h2 h3 h4 h5,
    applyOverlayUpdate_fresh]
  cases hsc : s.showCreated with
  | true =>
    cases hsm : s.showModified with
    | true => rw [hsc, hsm] at hx; exact absurd rfl hx
    | false => simp [dateTextOf, formatDate, hsc, hsm]
  | false =>
    cases hsm : s.showModified with
    | true => simp [dateTextOf, formatDate, hsc, hsm, empty_string_append]
    | false => rw [hsc, hsm] at hx; exact absurd rfl hx

theorem single_flag_text_witness :
    overlayText (updateActiveDates exMoment exCreatedOnly exEnv exChildren) =
      some (if exCreatedOnly.showCreated
        then "Created: " ++ exMoment exFile.ctime exCreatedOnly.dateFormat
        else "Modified: " ++ exMoment exFile.mtime exCreatedOnly.dateFormat) :=
  single_flag_text exMoment exCreatedOnly exEnv exFile exChildren
    (by decide) rfl rfl rfl rfl rfl

/-- C3: with both flags false and all refresh preconditions met, the
overlay node still exists after the refresh (the lookup-or-create step
runs before the text computation) and its text content is the empty
string. -/
theorem no_flags_empty_text (m : Nat → String → String) (s : Settings)
    (env : RefreshEnv) (file : FileStat) (children : List DomNode)
    (hC : s.showCreated = false) (hM : s.showModified = false)
    (h1 : env.hasActiveLeaf = true) (h2 : env.hasView = true)
    (h3 : env.activeFile = some file)
    (h4 : hasInlineTitle children = true) (h5 : env.titleInMarkdownView = true) :
    overlayText (updateActiveDates m s env children) = some "" := by
  rw [overlayText, findOverlay_updateActiveDates m s env file children h1 h2 h3 h4 h5,
    applyOverlayUpdate_fresh]
  simp [dateTextOf, hC, hM]

theorem no_flags_empty_text_witness :
    overlayText (updateActiveDates exMoment exNoneShown exEnv exChildren) = some "" :=
  no_flags_empty_text exMoment exNoneShown exEnv exFile exChildren
    rfl rfl rfl rfl rfl rfl rfl

/-- C4: under the refresh preconditions and with at most one overlay in
the container, a refresh is idempotent (a second call with unchanged
inputs returns the identical container, node, text and styles), it
keeps the overlay count at most one (a found node is reused, never
duplicated), and when no overlay existed the created node is inserted
as the immediately preceding sibling of the inline title in the same
child list. -/
theorem overlay_unique_and_idempotent (m : Nat → String → String) (s : Settings)
    (env : RefreshEnv) (file : FileStat) (children : List DomNode)
    (h1 : env.hasActiveLeaf = true) (h2 : env.hasView = true)
    (h3 : env.activeFile = some file)
    (h4 : hasInlineTitle children = true) (h5 : env.titleInMarkdownView = true)
    (hcount : countOverlays children ≤ 1) :
    updateActiveDates m s env (updateActiveDates m s env children) =
      updateActiveDates m s env children ∧
    countOverlays (updateActiveDates m s env children) ≤ 1 ∧
    (findOverlay children = none →
      overlayJustBeforeTitle (updateActiveDates m s env children) = true) := by
  refine ⟨?_, ?_, ?_⟩
  · have hgg : (fun k => applyOverlayUpdate m s file env.titleStyle
        (applyOverlayUpdate m s file env.titleStyle k)) =
        applyOverlayUpdate m s file env.titleStyle := by
      funext k
      exact applyOverlayUpdate_const m s file env.titleStyle _ k
    have ht' : hasInlineTitle (updateActiveDates m s env children) = true := by
      rw [updateActiveDates_active m s env file children h1 h2 h3 h4 h5]
      cases hfo : findOverlay children <;>
        simp [hasInlineTitle_updateFirstOverlay, hasInlineTitle_insertOverlay, h4]
    have hone : updateActiveDates m s env (updateActiveDates m s env children) =
        updateFirstOverlay (applyOverlayUpdate m s file env.titleStyle)
          (updateActiveDates m s env children) := by
      rw [updateActiveDates_active m s env file (updateActiveDates m s env children)
          h1 h2 h3 ht' h5,
        findOverlay_updateActiveDates m s env file children h1 h2 h3 h4 h5]
    rw [hone, updateActiveDates_active m s env file children h1 h2 h3 h4 h5,
      updateFirstOverlay_updateFirstOverlay, hgg]
  · rw [updateActiveDates_active m s env file children h1 h2 h3 h4 h5]
    cases hfo : findOverlay children with
    | some k => simpa [countOverlays_updateFirstOverlay] using hcount
    | none =>
      have h0 := countOverlays_of_findOverlay_none children hfo
      simp [countOverlays_updateFirstOverlay, countOverlays_insertOverlay, h0]
  · intro hfo
    rw [updateActiveDates_active m s env file children h1 h2 h3 h4 h5, hfo]
    exact overlayJustBeforeTitle_insert_update _ _ children h4 hfo

theorem overlay_unique_and_idempotent_witness :
    updateActiveDates exMoment defaultSettings exEnv
        (updateActiveDates exMoment defaultSettings exEnv exChildren) =
      updateActiveDates exMoment defaultSettings exEnv exChildren ∧
    countOverlays (updateActiveDates exMoment defaultSettings exEnv exChildren) ≤ 1 ∧
    overlayJustBeforeTitle
      (updateActiveDates exMoment defaultSettings exEnv exChildren) = true :=
  ⟨(overlay_unique_and_idempotent exMoment defaultSettings exEnv exFile exChildren
      rfl rfl rfl rfl rfl (by decide)).1,
   (overlay_unique_and_idempotent exMoment defaultSettings exEnv exFile exChildren
      rfl rfl rfl rfl rfl (by decide)).2.1,
   (overlay_unique_and_idempotent exMoment defaultSettings exEnv exFile exChildren
      rfl rfl rfl rfl rfl (by decide)).2.2 rfl⟩

/-- C5: whenever any precondition fails — no active leaf, no view, no
active file, or no inline title resolving to a markdown content
container — `updateActiveDates` returns the container's child list
unchanged: no node is created, removed or modified, and the function
returns normally (it is total, with no error channel). -/
theorem missing_preconditions_noop (m : Nat → String → String) (s : Settings)
    (env : RefreshEnv) (children : List DomNode)
    (h : env.hasActiveLeaf = false ∨ env.hasView = false ∨ env.activeFile = none ∨
      hasInlineTitle children = false ∨ env.titleInMarkdownView = false) :
    updateActiveDates m s env children = children := by
  unfold updateActiveDates
  rcases h with h | h | h | h | h <;>
    cases ha : env.hasActiveLeaf <;> cases hv : env.hasView <;>
      cases hf : env.activeFile <;> simp_all

theorem missing_preconditions_noop_witness :
    updateActiveDates exMoment defaultSettings exEnvNoLeaf exChildren = exChildren :=
  missing_preconditions_noop exMoment defaultSettings exEnvNoLeaf exChildren
    (Or.inl rfl)

/-- C6: after any refresh that passes the preconditions, the overlay's
font-size style is the settings' `fontSize` string verbatim, and its
font style is `"italic"` when the italic flag is true and `"normal"`
when it is false. -/
theorem style_settings_passthrough (m : Nat → String → String) (s : Settings)
    (env : RefreshEnv) (file : FileStat) (children : List DomNode)
    (h1 : env.hasActiveLeaf = true) (h2 : env.hasView = true)
    (h3 : env.activeFile = some file)
    (h4 : hasInlineTitle children = true) (h5 : env.titleInMarkdownView = true) :
    (findOverlay (updateActiveDates m s env children)).map OverlayNode.fontSize =
      some s.fontSize ∧
    (findOverlay (updateActiveDates m s env children)).map OverlayNode.fontStyle =
      some (if s.italic then "italic" else "normal") := by
  rw [findOverlay_updateActiveDates m s env file children h1 h2 h3 h4 h5]
  exact ⟨rfl, rfl⟩

theorem style_settings_passthrough_witness :
    (findOverlay (updateActiveDates exMoment defaultSettings exEnv exChildren)).map
        OverlayNode.fontSize = some defaultSettings.fontSize ∧
    (findOverlay (updateActiveDates exMoment defaultSettings exEnv exChildren)).map
        OverlayNode.fontStyle =
      some (if defaultSettings.italic then "italic" else "normal") :=
  style_settings_passthrough exMoment defaultSettings exEnv exFile exChildren
    rfl rfl rfl rfl rfl

/-- C7: after any refresh that passes the preconditions, the overlay's
text alignment, left/right padding and left/right margin each equal the
inline title's computed values read at that refresh. -/
theorem title_style_mirroring (m : Nat → String → String) (s : Settings)
    (env : RefreshEnv) (file : FileStat) (children : List DomNode)
    (h1 : env.hasActiveLeaf = true) (h2 : env.hasView = true)
    (h3 : env.activeFile = some file)
    (h4 : hasInlineTitle children = true) (h5 : env.titleInMarkdownView = true) :
    (findOverlay (updateActiveDates m s env children)).map OverlayNode.textAlign =
      some env.titleStyle.textAlign ∧
    (findOverlay (updateActiveDates m s env children)).map OverlayNode.paddingLeft =
      some env.titleStyle.paddingLeft ∧
    (findOverlay (updateActiveDates m s env children)).map OverlayNode.paddingRight =
      some env.titleStyle.paddingRight ∧
    (findOverlay (updateActiveDates m s env children)).map OverlayNode.marginLeft =
      some env.titleStyle.marginLeft ∧
    (findOverlay (updateActiveDates m s env children)).map OverlayNode.marginRight =
      some env.titleStyle.marginRight := by
  rw [findOverlay_updateActiveDates m s env file children h1 h2 h3 h4 h5]
  exact ⟨rfl, rfl, rfl, rfl, rfl⟩

theorem title_style_mirroring_witness :
    (findOverlay (updateActiveDates exMoment defaultSettings exEnv exChildren)).map
        OverlayNode.textAlign = some exEnv.titleStyle.textAlign ∧
    (findOverlay (updateActiveDates exMoment defaultSettings exEnv exChildren)).map
        OverlayNode.paddingLeft = some exEnv.titleStyle.paddingLeft ∧
    (findOverlay (updateActiveDates exMoment defaultSettings exEnv exChildren)).map
        OverlayNode.paddingRight = some exEnv.titleStyle.paddingRight ∧
    (findOverlay (updateActiveDates exMoment defaultSettings exEnv exChildren)).map
        OverlayNode.marginLeft = some exEnv.titleStyle.marginLeft ∧
    (findOverlay (updateActiveDates exMoment defaultSettings exEnv exChildren)).map
        OverlayNode.marginRight = some exEnv.titleStyle.marginRight :=
  title_style_mirroring exMoment defaultSettings exEnv exFile exChildren
    rfl rfl rfl rfl rfl

/-- C8: each of the five settings controls runs, on every edit, the
step sequence field-write, then awaited persist, then refresh. For each
handler: the full run ends with the field updated, the updated record
persisted, and the container refreshed under the updated record; and
the run of just the first two steps already has the updated record
persisted while the container is still untouched — so the persist
completes before the refresh runs, and the refresh observes the new
value. -/
theorem settings_change_handler_order (m : Nat → String → String) (env : RefreshEnv)
    (v p : String) (b c d : Bool) (st : PluginState) :
    (runCmds m env (fontSizeOnChange v) st =
      { settings := { st.settings with fontSize := v }
        savedData := some { st.settings with fontSize := v }
        dom := updateActiveDates m { st.settings with fontSize := v } env st.dom } ∧
      runCmds m env [PanelCmd.setFontSize v, PanelCmd.saveSettings] st =
      { settings := { st.settings with fontSize := v }
        savedData := some { st.settings with fontSize := v }
        dom := st.dom }) ∧
    (runCmds m env (italicOnChange b) st =
      { settings := { st.settings with italic := b }
        savedData := some { st.settings with italic := b }
        dom := updateActiveDates m { st.settings with italic := b } env st.dom } ∧
      runCmds m env [PanelCmd.setItalic b, PanelCmd.saveSettings] st =
      { settings := { st.settings with italic := b }
        savedData := some { st.settings with italic := b }
        dom := st.dom }) ∧
    (runCmds m env (showCreatedOnChange c) st =
      { settings := { st.settings with showCreated := c }
        savedData := some { st.settings with showCreated := c }
        dom := updateActiveDates m { st.settings with showCreated := c } env st.dom } ∧
      runCmds m env [PanelCmd.setShowCreated c, PanelCmd.saveSettings] st =
      { settings := { st.settings with showCreated := c }
        savedData := some { st.settings with showCreated := c }
        dom := st.dom }) ∧
    (runCmds m env (showModifiedOnChange d) st =
      { settings := { st.settings with showModified := d }
        savedData := some { st.settings with showModified := d }
        dom := updateActiveDates m { st.settings with showModified := d } env st.dom } ∧
      runCmds m env [PanelCmd.setShowModified d, PanelCmd.saveSettings] st =
      { settings := { st.settings with showModified := d }
        savedData := some { st.settings with showModified := d }
        dom := st.dom }) ∧
    (runCmds m env (dateFormatOnChange p) st =
      { settings := { st.settings with dateFormat := p }
        savedData := some { st.settings with dateFormat := p }
        dom := updateActiveDates m { st.settings with dateFormat := p } env st.dom } ∧
      runCmds m env [PanelCmd.setDateFormat p, PanelCmd.saveSettings] st =
      { settings := { st.settings with dateFormat := p }
        savedData := some { st.settings with dateFormat := p }
        dom := st.dom }) :=
  ⟨⟨rfl, rfl⟩, ⟨rfl, rfl⟩, ⟨rfl, rfl⟩, ⟨rfl, rfl⟩, ⟨rfl, rfl⟩⟩

/-- C9: the settings record loaded at startup is the fixed defaults
overridden field by field by the persisted record: every field present
in the persisted record takes the persisted value, every absent field
keeps its default, and with nothing persisted at all the result is
exactly the defaults (shown both field-wise for an arbitrary partial
record and on a concrete partial record). -/
theorem load_settings_merge (d : PartialSettings) :
    loadSettings none = defaultSettings ∧
    (loadSettings (some d)).fontSize = d.fontSize.getD defaultSettings.fontSize ∧
    (loadSettings (some d)).italic = d.italic.getD defaultSettings.italic ∧
    (loadSettings (some d)).showCreated =
      d.showCreated.getD defaultSettings.showCreated ∧
    (loadSettings (some d)).showModified =
      d.showModified.getD defaultSettings.showModified ∧
    (loadSettings (some d)).dateFormat = d.dateFormat.getD defaultSettings.dateFormat ∧
    loadSettings (some
      { fontSize := some "9px"
        italic := none
        showCreated := none
        showModified := some false
        dateFormat := none }) =
      { fontSize := "9px"
        italic := true
        showCreated := true
        showModified := false
        dateFormat := "MM-DD-YYYY" } :=
  ⟨rfl, rfl, rfl, rfl, rfl, rfl, rfl⟩

/-- C10: the refresh operation never modifies the settings record — the
state after a `refreshOverlay` step carries the identical settings,
field by field — and the persist step does not modify it either; only
the five field-write steps of the settings panel's handlers touch it. -/
theorem refresh_preserves_settings (m : Nat → String → String) (env : RefreshEnv)
    (st : PluginState) :
    (runCmd m env PanelCmd.refreshOverlay st).settings = st.settings ∧
    (runCmd m env PanelCmd.refreshOverlay st).settings.fontSize =
      st.settings.fontSize ∧
    (runCmd m env PanelCmd.refreshOverlay st).settings.italic = st.settings.italic ∧
    (runCmd m env PanelCmd.refreshOverlay st).settings.showCreated =
      st.settings.showCreated ∧
    (runCmd m env PanelCmd.refreshOverlay st).settings.showModified =
      st.settings.showModified ∧
    (runCmd m env PanelCmd.refreshOverlay st).settings.dateFormat =
      st.settings.dateFormat ∧
    (runCmd m env PanelCmd.saveSettings st).settings = st.settings :=
  ⟨rfl, rfl, rfl, rfl, rfl, rfl, rfl⟩

end FileDates
